import Mathlib

/-
Verification development for the legal-hirag core
(src/core/document_parser.py, src/core/clustering.py,
src/models/legal_schemas.py, src/utils/legal_parser.py,
src/utils/embeddings.py).

Conventions of the shallow embedding:
* Python floats are modelled exactly as rationals (ℚ); `0.3` etc. denote
  the exact rational of the decimal literal.
* numpy / sklearn / network calls are external libraries, not code of this
  repository; they enter the model as oracle parameters (functions that may
  return `none` to model a raised exception), with their documented
  contracts as hypotheses where a claim needs them.
* A Python `try/except` block is modelled by `Option`: `none` from an
  oracle inside the `try` selects the `except` branch.
* Python lists used as stacks (append / pop at the right end) are modelled
  as Lean lists with the HEAD as the stack top.
* Python dicts keyed by strings are modelled either as association lists
  (insertion ordered) or, when only lookup matters, as the
  "last assignment wins" fold that dict construction performs.
* Lines fed to the parser come from `text.split("\n")` and therefore
  contain no newline; the Python-regex dot may thus match any char.
* `str.strip` / `\s` are modelled with ASCII whitespace (the only
  whitespace occurring in the repository's inputs).
-/

namespace LegalHirag

/-- The five structural levels, `LegalLevel` of src/models/legal_schemas.py. -/
inductive LegalLevel where
  | phan
  | chuong
  | muc
  | dieu
  | khoan
deriving DecidableEq, Inhabited

/-- The `.value` string of each `LegalLevel` enum member. -/
def levelValue : LegalLevel → String
  | .phan => "phan"
  | .chuong => "chuong"
  | .muc => "muc"
  | .dieu => "dieu"
  | .khoan => "khoan"

/-- `LegalDocumentParser.hierarchy_order = ["phan","chuong","muc","dieu","khoan"]`. -/
def hierarchyOrder : List LegalLevel := [.phan, .chuong, .muc, .dieu, .khoan]

/-- Position of a level in `hierarchy_order` (the `.index` used by `_is_child_of`;
levels always occur in the list, so the ValueError branch is unreachable). -/
def levelIndex : LegalLevel → Nat
  | .phan => 0
  | .chuong => 1
  | .muc => 2
  | .dieu => 3
  | .khoan => 4

/-- `LegalDocumentParser._is_child_of`: child_idx > parent_idx. -/
def isChildOf (childLevel parentLevel : LegalLevel) : Bool :=
  levelIndex parentLevel < levelIndex childLevel

def dashStr : String := "-"

/-- Provision id built in `_extract_provisions`: f"{level}-{number}". -/
def mkId (lvl : LegalLevel) (number : String) : String :=
  levelValue lvl ++ dashStr ++ number

/-- Recover the level encoded in a provision id (the five level names have
pairwise distinct initial letters, so the id prefix determines the level). -/
def levelOfId (s : String) : Option LegalLevel :=
  match s.data with
  | 'p' :: 'h' :: 'a' :: 'n' :: '-' :: _ => some .phan
  | 'c' :: 'h' :: 'u' :: 'o' :: 'n' :: 'g' :: '-' :: _ => some .chuong
  | 'm' :: 'u' :: 'c' :: '-' :: _ => some .muc
  | 'd' :: 'i' :: 'e' :: 'u' :: '-' :: _ => some .dieu
  | 'k' :: 'h' :: 'o' :: 'a' :: 'n' :: '-' :: _ => some .khoan
  | _ => none

/-- `LegalProvision` of src/models/legal_schemas.py (fields the core reads;
`entities` and `created_at` are never consulted by parser or clustering). -/
structure LegalProvision where
  id : String
  level : LegalLevel
  number : String
  title : String
  content : String
  documentId : String
  parentId : Option String := none
  hierarchyPath : List String := []
  crossReferences : List String := []
deriving DecidableEq

instance : Inhabited LegalProvision :=
  ⟨{ id := "", level := .phan, number := "", title := "", content := "",
     documentId := "" }⟩

/- ========================= Pattern Matcher =========================
   `LegalDocumentParser.patterns`, matched with re.match(..., re.IGNORECASE).
   Each regex is transcribed as a direct prefix parser on the char list. -/

/-- Python `\s` (ASCII part): space, tab, newline, carriage return,
vertical tab, form feed. -/
def isPySpace (c : Char) : Bool :=
  c = ' ' || c = '\t' || c = '\n' || c = '\r' || c = '\x0b' || c = '\x0c'

/-- Unicode case folding for the characters occurring in the parser's
patterns: ASCII letters plus the uppercase Vietnamese letters of the
character class in the `phan` pattern (re.IGNORECASE semantics). -/
def foldChar (c : Char) : Char :=
  match c with
  | 'Á' => 'á' | 'À' => 'à' | 'Ả' => 'ả' | 'Ã' => 'ã' | 'Ạ' => 'ạ'
  | 'Ă' => 'ă' | 'Ắ' => 'ắ' | 'Ằ' => 'ằ' | 'Ẳ' => 'ẳ' | 'Ẵ' => 'ẵ' | 'Ặ' => 'ặ'
  | 'Â' => 'â' | 'Ấ' => 'ấ' | 'Ầ' => 'ầ' | 'Ẩ' => 'ẩ' | 'Ẫ' => 'ẫ' | 'Ậ' => 'ậ'
  | 'Đ' => 'đ'
  | 'É' => 'é' | 'È' => 'è' | 'Ẻ' => 'ẻ' | 'Ẽ' => 'ẽ' | 'Ẹ' => 'ẹ'
  | 'Ê' => 'ê' | 'Ế' => 'ế' | 'Ề' => 'ề' | 'Ể' => 'ể' | 'Ễ' => 'ễ' | 'Ệ' => 'ệ'
  | 'Í' => 'í' | 'Ì' => 'ì' | 'Ỉ' => 'ỉ' | 'Ĩ' => 'ĩ' | 'Ị' => 'ị'
  | 'Ó' => 'ó' | 'Ò' => 'ò' | 'Ỏ' => 'ỏ' | 'Õ' => 'õ' | 'Ọ' => 'ọ'
  | 'Ô' => 'ô' | 'Ố' => 'ố' | 'Ồ' => 'ồ' | 'Ổ' => 'ổ' | 'Ỗ' => 'ỗ' | 'Ộ' => 'ộ'
  | 'Ơ' => 'ơ' | 'Ớ' => 'ớ' | 'Ờ' => 'ờ' | 'Ở' => 'ở' | 'Ỡ' => 'ỡ' | 'Ợ' => 'ợ'
  | 'Ú' => 'ú' | 'Ù' => 'ù' | 'Ủ' => 'ủ' | 'Ũ' => 'ũ' | 'Ụ' => 'ụ'
  | 'Ư' => 'ư' | 'Ứ' => 'ứ' | 'Ừ' => 'ừ' | 'Ử' => 'ử' | 'Ữ' => 'ữ' | 'Ự' => 'ự'
  | 'Ý' => 'ý' | 'Ỳ' => 'ỳ' | 'Ỷ' => 'ỷ' | 'Ỹ' => 'ỹ' | 'Ỵ' => 'ỵ'
  | _ => c.toLower

/-- Case-insensitive literal keyword match; returns the rest of the input. -/
def matchCI : List Char → List Char → Option (List Char)
  | [], cs => some cs
  | _ :: _, [] => none
  | k :: ks, c :: cs => if foldChar c = foldChar k then matchCI ks cs else none

/-- `\s+` followed by the remaining input (greedy; the constructs that follow
it in every pattern cannot match whitespace, so maximal munch is exact). -/
def spacesPlus (cs : List Char) : Option (List Char × List Char) :=
  match cs with
  | c :: rest =>
    if isPySpace c then some (c :: rest.takeWhile isPySpace, rest.dropWhile isPySpace)
    else none
  | [] => none

/-- `[class]+`: maximal nonempty run of class characters (the literal or
class that follows in every pattern is disjoint from the class, so maximal
munch coincides with backtracking semantics). -/
def classPlus (p : Char → Bool) (cs : List Char) : Option (List Char × List Char) :=
  match cs with
  | c :: _ =>
    if p c then some (cs.takeWhile p, cs.dropWhile p) else none
  | [] => none

/-- `[IVX]` under IGNORECASE. -/
def isRomanCI (c : Char) : Bool :=
  foldChar c = 'i' || foldChar c = 'v' || foldChar c = 'x'

/-- Lowercase forms of the Vietnamese letters in the big character class of
the `phan` pattern. -/
def lowerVietnamese : List Char :=
  ['á','à','ả','ã','ạ','ă','ắ','ằ','ẳ','ẵ','ặ','â','ấ','ầ','ẩ','ẫ','ậ','đ',
   'é','è','ẻ','ẽ','ẹ','ê','ế','ề','ể','ễ','ệ','í','ì','ỉ','ĩ','ị',
   'ó','ò','ỏ','õ','ọ','ô','ố','ồ','ổ','ỗ','ộ','ơ','ớ','ờ','ở','ỡ','ợ',
   'ú','ù','ủ','ũ','ụ','ư','ứ','ừ','ử','ữ','ự','ý','ỳ','ỷ','ỹ','ỵ']

/-- `[A-ZÁÀ...Ỵ]` under IGNORECASE. -/
def inBigClass (c : Char) : Bool :=
  ('a' ≤ foldChar c && foldChar c ≤ 'z') || lowerVietnamese.contains (foldChar c)

/-- `\s*(.+)` at the end of every pattern: consume maximal whitespace; if a
non-whitespace char remains the group is the remaining suffix; on an
all-whitespace nonempty rest, backtracking leaves exactly the last char. -/
def tailSpacesRest (cs : List Char) : Option String :=
  let rest := cs.dropWhile isPySpace
  if rest.isEmpty then
    match cs.getLast? with
    | some c => some (String.mk [c])
    | none => none
  else some (String.mk rest)

/-- `PHẦN\s+([IVX]+|THỨ\s+[A-ZÁ...Ỵ]+):\s*(.+)`, second alternative. -/
def phanThuBranch (cs : List Char) : Option (String × String) :=
  match matchCI ("THỨ".data) cs with
  | none => none
  | some r1 =>
    match spacesPlus r1 with
    | none => none
    | some (sp, r2) =>
      match classPlus inBigClass r2 with
      | none => none
      | some (word, r3) =>
        match r3 with
        | ':' :: r4 =>
          (tailSpacesRest r4).map fun title =>
            (String.mk (cs.take 3 ++ sp ++ word), title)
        | _ => none

/-- `PHẦN\s+([IVX]+|THỨ\s+[A-ZÁ...Ỵ]+):\s*(.+)` (group 1 is returned
verbatim from the input, as re groups are). -/
def phanMatch (cs : List Char) : Option (String × String) :=
  match matchCI ("PHẦN".data) cs with
  | none => none
  | some r1 =>
    match spacesPlus r1 with
    | none => none
    | some (_, r2) =>
      match classPlus isRomanCI r2 with
      | some (num, ':' :: r3) =>
        (tailSpacesRest r3).map fun title => (String.mk num, title)
      | _ => phanThuBranch r2

/-- `CHƯƠNG\s+([IVX]+):\s*(.+)`. -/
def chuongMatch (cs : List Char) : Option (String × String) :=
  match matchCI ("CHƯƠNG".data) cs with
  | none => none
  | some r1 =>
    match spacesPlus r1 with
    | none => none
    | some (_, r2) =>
      match classPlus isRomanCI r2 with
      | some (num, ':' :: r3) =>
        (tailSpacesRest r3).map fun title => (String.mk num, title)
      | _ => none

/-- `MỤC\s+([IVX]+|\d+):\s*(.+)` (roman alternative tried first). -/
def mucMatch (cs : List Char) : Option (String × String) :=
  match matchCI ("MỤC".data) cs with
  | none => none
  | some r1 =>
    match spacesPlus r1 with
    | none => none
    | some (_, r2) =>
      match classPlus isRomanCI r2 with
      | some (num, ':' :: r3) =>
        (tailSpacesRest r3).map fun title => (String.mk num, title)
      | _ =>
        match classPlus Char.isDigit r2 with
        | some (num, ':' :: r3) =>
          (tailSpacesRest r3).map fun title => (String.mk num, title)
        | _ => none

/-- `Điều\s+(\d+)\.\s*(.+)`. -/
def dieuMatch (cs : List Char) : Option (String × String) :=
  match matchCI ("Điều".data) cs with
  | none => none
  | some r1 =>
    match spacesPlus r1 with
    | none => none
    | some (_, r2) =>
      match classPlus Char.isDigit r2 with
      | some (num, '.' :: r3) =>
        (tailSpacesRest r3).map fun title => (String.mk num, title)
      | _ => none

/-- `^(\d+)\.\s+(.+)`. -/
def khoanMatch (cs : List Char) : Option (String × String) :=
  match classPlus Char.isDigit cs with
  | some (num, '.' :: r1) =>
    match r1 with
    | c :: r2 =>
      if isPySpace c then
        (tailSpacesRest r2).map fun title => (String.mk num, title)
      else none
    | [] => none
  | _ => none

/-- `LegalDocumentParser._match_legal_pattern`: the five patterns tried in
dict insertion order (phan, chuong, muc, dieu, khoan); first match wins.
The string level of the source is returned as the already-converted
`LegalLevel` (the `LegalLevel(level)` call of `_extract_provisions`). -/
def matchLegalPattern (line : String) : Option (LegalLevel × String × String) :=
  match phanMatch line.data with
  | some (n, t) => some (.phan, n, t)
  | none =>
    match chuongMatch line.data with
    | some (n, t) => some (.chuong, n, t)
    | none =>
      match mucMatch line.data with
      | some (n, t) => some (.muc, n, t)
      | none =>
        match dieuMatch line.data with
        | some (n, t) => some (.dieu, n, t)
        | none =>
          match khoanMatch line.data with
          | some (n, t) => some (.khoan, n, t)
          | none => none

/-- `VietnameseLegalParser.level_patterns["khoan"][1]` of
src/utils/legal_parser.py: `^([a-z])\)\s+(.+)` (this parser class is defined
but never instantiated by the document pipeline). -/
def vietKhoanLetterParen (line : String) : Option (String × String) :=
  match line.data with
  | c :: ')' :: rest =>
    if 'a' ≤ c && c ≤ 'z' then
      match rest with
      | d :: r2 =>
        if isPySpace d then
          (tailSpacesRest r2).map fun title => (String.mk [c], title)
        else none
      | [] => none
    else none
  | _ => none

/- ========================= Provision Extractor =========================
   `LegalDocumentParser._extract_provisions`. The input is the line list
   `text.split("\n")`. -/

def newlineStr : String := "\n"

/-- The provision freshly created when a marker line is recognized
(`LegalProvision(id=..., level=..., number=..., title=..., content="",
document_id="")`). -/
def mkProvisionFromMatch (lvl : LegalLevel) (number title : String) : LegalProvision :=
  { id := mkId lvl number, level := lvl, number := number, title := title,
    content := "", documentId := "" }

/-- Closing the open provision: `current_provision.content =
"\n".join(content_buffer).strip()`. -/
def closeProvision (cur : LegalProvision) (buf : List String) : LegalProvision :=
  { cur with content := (String.intercalate newlineStr buf).trim }

/-- The extraction loop; the state is the open provision together with its
content buffer (`current_provision`, `content_buffer`), `none` before the
first recognized marker. -/
def extractProvisionsAux :
    List String → Option (LegalProvision × List String) → List LegalProvision
  | [], none => []
  | [], some (cur, buf) => [closeProvision cur buf]
  | l :: rest, st =>
    let line := l.trim
    if line = "" then extractProvisionsAux rest st
    else
      match matchLegalPattern line with
      | some (lvl, number, title) =>
        match st with
        | some (cur, buf) =>
          closeProvision cur buf ::
            extractProvisionsAux rest (some (mkProvisionFromMatch lvl number title, [line]))
        | none =>
          extractProvisionsAux rest (some (mkProvisionFromMatch lvl number title, [line]))
      | none =>
        match st with
        | some (cur, buf) => extractProvisionsAux rest (some (cur, buf ++ [line]))
        | none => extractProvisionsAux rest none

/-- `LegalDocumentParser._extract_provisions`. -/
def extractProvisions (lines : List String) : List LegalProvision :=
  extractProvisionsAux lines none

/- Spec-side view of the extractor (§4.2 of the spec), used to state C4:
   strip lines, drop blanks, drop the preamble before the first marker, and
   split the rest into segments at marker lines. -/

/-- Stripped non-blank lines, in order. -/
def cleanLines (lines : List String) : List String :=
  (lines.map String.trim).filter (fun l => !(l == ""))

/-- A line the Pattern Matcher does not recognize. -/
def isNotMarker (l : String) : Bool := (matchLegalPattern l).isNone

/-- Modelled from the spec (§4.2): the segmentation of the cleaned line list
into (marker line, following body lines) pairs, dropping stray preamble. -/
def specSegments : List String → List (String × List String)
  | [] => []
  | l :: rest =>
    if (matchLegalPattern l).isSome then
      (l, rest.takeWhile isNotMarker) :: specSegments (rest.dropWhile isNotMarker)
    else
      specSegments rest
termination_by ls => ls.length
decreasing_by
  · exact Nat.lt_succ_of_le (List.dropWhile_suffix _).length_le
  · exact Nat.lt_succ_self _

/-- Modelled from the spec (§4.2): the provision a segment denotes — level,
ordinal and heading from the marker line, body the joined-and-trimmed
buffered lines beginning with the marker line itself. -/
def segToProvision (seg : String × List String) : LegalProvision :=
  match matchLegalPattern seg.1 with
  | some (lvl, number, title) =>
    { mkProvisionFromMatch lvl number title with
      content := (String.intercalate newlineStr (seg.1 :: seg.2)).trim }
  | none => default

/- ========================= Hierarchy Builder =========================
   `LegalDocumentParser._build_hierarchy`. -/

/-- The `provision_data` dict registered per provision. -/
structure HierEntry where
  id : String
  level : LegalLevel
  number : String
  title : String
  parentId : Option String
  hierarchyPath : List String
  children : List String
deriving DecidableEq

/-- `hierarchy[provision.id] = provision_data` (dict upsert, insertion
ordered). -/
def upsertEntry : List (String × HierEntry) → String → HierEntry → List (String × HierEntry)
  | [], k, v => [(k, v)]
  | (k', v') :: rest, k, v =>
    if k' = k then (k, v) :: rest else (k', v') :: upsertEntry rest k v

/-- `parent_id in hierarchy`. -/
def hasKey (m : List (String × HierEntry)) (k : String) : Bool :=
  m.any (fun p => p.1 = k)

/-- `hierarchy[parent_id]["children"].append(provision.id)`. -/
def addChild (m : List (String × HierEntry)) (pid cid : String) : List (String × HierEntry) :=
  m.map fun p =>
    if p.1 = pid then (p.1, { p.2 with children := p.2.children ++ [cid] }) else p

/-- One pass of `_build_hierarchy`; the parent stack holds the
`provision_data` records with the stack TOP at the list head. Returns the
mutated provisions (parent_id / hierarchy_path set) and the hierarchy dict. -/
def buildHierarchyAux :
    List LegalProvision → List HierEntry → List (String × HierEntry) →
    List LegalProvision × List (String × HierEntry)
  | [], _, hier => ([], hier)
  | p :: rest, stack, hier =>
    -- pop while the top cannot contain the current provision
    let stack' := stack.dropWhile (fun e => !(isChildOf p.level e.level))
    let parentId := stack'.head?.map (·.id)
    let path :=
      match stack'.head? with
      | some top => top.hierarchyPath ++ [p.id]
      | none => [p.id]
    let p' := { p with parentId := parentId, hierarchyPath := path }
    let entry : HierEntry :=
      { id := p.id, level := p.level, number := p.number, title := p.title,
        parentId := parentId, hierarchyPath := path, children := [] }
    let hier' :=
      match parentId with
      | some pid => if hasKey hier pid then addChild hier pid p.id else hier
      | none => hier
    let res := buildHierarchyAux rest (entry :: stack') (upsertEntry hier' p.id entry)
    (p' :: res.1, res.2)

/-- `LegalDocumentParser._build_hierarchy` (provisions in document order). -/
def buildHierarchy (provisions : List LegalProvision) :
    List LegalProvision × List (String × HierEntry) :=
  buildHierarchyAux provisions [] []

/-- Strict level increase between adjacent hierarchy-path elements, levels
read off the ids. -/
def idLevelLt (a b : String) : Bool :=
  match levelOfId a, levelOfId b with
  | some la, some lb => levelIndex la < levelIndex lb
  | _, _ => false

/- ========================= Clustering =========================
   `LegalHierarchicalClustering` of src/core/clustering.py.  Entities are
   the loosely-typed dicts produced by the external extractor; the fields
   the clustering code reads (`entity.get(...)`) are modelled as optional
   fields.  numpy/sklearn and the vector store enter as oracles. -/

/-- A concept record (`Dict[str, Any]`), restricted to the keys the
clustering code reads. A missing key is `none` (`dict.get` default). -/
structure Entity where
  entityName : Option String
  entityType : Option String
  level : Option String
  sourceId : Option String
deriving DecidableEq

instance : Inhabited Entity := ⟨⟨none, none, none, none⟩⟩

def emptyStr : String := ""
def unknownStr : String := "unknown"
def phanStr : String := "phan"
def chuongStr : String := "chuong"
def mucStr : String := "muc"
def dieuStr : String := "dieu"
def khoanStr : String := "khoan"

/-- Constructor parameters of `LegalHierarchicalClustering.__init__`. -/
structure ClusteringConfig where
  maxClusters : Nat
  minClusterSize : Nat

/-- The defaults `max_clusters=10, min_cluster_size=3`. -/
def defaultClusteringConfig : ClusteringConfig :=
  { maxClusters := 10, minClusterSize := 3 }

/-- `self.level_weights` combined with the guard of
`_calculate_entity_legal_similarity`: weight of a level string, 1.0 when
the string is not a `LegalLevel` value. -/
def levelWeightOf (level : String) : ℚ :=
  if level = phanStr then 1
  else if level = chuongStr then 2
  else if level = mucStr then 3
  else if level = dieuStr then 4
  else if level = khoanStr then 5
  else 1

/-- `self.cross_ref_boost = 1.5`. -/
def crossRefBoost : ℚ := 1.5

/-- The dict `provision_lookup` built by `provision_lookup[p.id] = p` over
the provisions in order: the LAST provision with the given id wins. -/
def provisionLookup (provisions : List LegalProvision) (pid : String) :
    Option LegalProvision :=
  provisions.foldl (fun acc p => if p.id = pid then some p else acc) none

/-- Insertion-ordered `defaultdict(list)` grouping: append `x` to the entry
of key `k`, creating the entry at the end when the key is new. -/
def insertKeyed [DecidableEq κ] (k : κ) (x : α) :
    List (κ × List α) → List (κ × List α)
  | [] => [(k, [x])]
  | (k', ys) :: rest =>
    if k' = k then (k', ys ++ [x]) :: rest else (k', ys) :: insertKeyed k x rest

/-- `defaultdict(list)` grouping by a key function followed by
`list(groups.values())`. -/
def groupByKey [DecidableEq κ] (f : α → κ) (xs : List α) : List (List α) :=
  (xs.foldl (fun acc x => insertKeyed (f x) x acc) []).map Prod.snd

/-- The grouping key computed per entity in `_cluster_by_legal_structure`
(a Python tuple of id strings, or the 1-tuple `(level,)`). -/
def structureKey (provisions : List LegalProvision) (e : Entity) : List String :=
  let level := e.level.getD unknownStr
  let sourceId := e.sourceId.getD emptyStr
  let hierarchyPath :=
    match provisionLookup provisions sourceId with
    | some p => p.hierarchyPath
    | none => []
  if hierarchyPath ≠ [] then
    if level = khoanStr ∧ hierarchyPath.length > 1 then
      hierarchyPath.dropLast
    else if level = dieuStr ∧ hierarchyPath.length > 2 then
      hierarchyPath.dropLast.dropLast
    else if hierarchyPath.length > 1 then hierarchyPath.dropLast
    else hierarchyPath
  else [level]

/-- `LegalHierarchicalClustering._cluster_by_legal_structure` (the
`provisions=None` call is the empty list: both make the lookup empty). -/
def clusterByLegalStructure (entities : List Entity)
    (provisions : List LegalProvision) : List (List Entity) :=
  groupByKey (structureKey provisions) entities

/-- The common-prefix loop of `_calculate_hierarchy_path_similarity`
(compare position by position, stop at first divergence). -/
def commonPrefixLen : List String → List String → Nat
  | a :: as, b :: bs => if a = b then commonPrefixLen as bs + 1 else 0
  | _, _ => 0

/-- `LegalHierarchicalClustering._calculate_hierarchy_path_similarity`. -/
def calculateHierarchyPathSimilarity (path1 path2 : List String) : ℚ :=
  if path1 = [] ∨ path2 = [] then 0
  else
    let c := commonPrefixLen path1 path2
    let m := max path1.length path2.length
    if m = 0 then 1 else (c : ℚ) / (m : ℚ)

/-- `LegalHierarchicalClustering._has_cross_reference_connection`. -/
def hasCrossReferenceConnection (prov1 prov2 : LegalProvision) : Prop :=
  prov2.id ∈ prov1.crossReferences ∨ prov1.id ∈ prov2.crossReferences

instance (prov1 prov2 : LegalProvision) :
    Decidable (hasCrossReferenceConnection prov1 prov2) := by
  unfold hasCrossReferenceConnection; infer_instance

/-- `LegalHierarchicalClustering._calculate_entity_legal_similarity`:
accumulate level bonus, hierarchy-path bonus, cross-reference bonus and
entity-type bonus, then cap at 1.0. -/
def calculateEntityLegalSimilarity (e1 e2 : Entity)
    (lookup : String → Option LegalProvision) : ℚ :=
  let s1 : ℚ :=
    if e1.level = e2.level then
      0.3 * levelWeightOf (e1.level.getD emptyStr) / 5
    else 0
  let s2 : ℚ :=
    match lookup (e1.sourceId.getD emptyStr), lookup (e2.sourceId.getD emptyStr) with
    | some p1, some p2 =>
      let s := s1 + 0.4 * calculateHierarchyPathSimilarity p1.hierarchyPath p2.hierarchyPath
      if hasCrossReferenceConnection p1 p2 then s + 0.2 * crossRefBoost else s
    | _, _ => s1
  let s3 : ℚ := if e1.entityType = e2.entityType then s2 + 0.1 else s2
  min s3 1

/-- `LegalHierarchicalClustering._calculate_legal_similarity_matrix` as the
entry function of the built matrix: `np.eye(n)` returned unchanged when the
provision list is missing or empty, otherwise ones on the diagonal and
`_calculate_entity_legal_similarity(entities[i], entities[j])` (computed for
i < j and mirrored) off it. -/
def calculateLegalSimilarityMatrix (entities : List Entity)
    (provisions : List LegalProvision) (i j : Nat) : ℚ :=
  if provisions = [] then (if i = j then 1 else 0)
  else if i = j then 1
  else
    calculateEntityLegalSimilarity (entities.getD (min i j) default)
      (entities.getD (max i j) default) (provisionLookup provisions)

/-- The safe norms of `_calculate_semantic_similarity`:
`norms[norms == 0] = 1`. `norm` stands for the external `np.linalg.norm`
row norm. -/
def safeNorms (norm : List ℚ → ℚ) (embeddings : List (List ℚ)) : List ℚ :=
  embeddings.map fun v => if norm v = 0 then 1 else norm v

/-- `embeddings / norms`: each row divided by its safe norm. -/
def normalizedEmbeddings (norm : List ℚ → ℚ) (embeddings : List (List ℚ)) :
    List (List ℚ) :=
  embeddings.map fun v =>
    let s := if norm v = 0 then 1 else norm v
    v.map (· / s)

def dotProduct (v w : List ℚ) : ℚ := (List.zipWith (· * ·) v w).sum

/-- `LegalHierarchicalClustering._calculate_semantic_similarity` as the
entry function of `normalized @ normalized.T`. -/
def calculateSemanticSimilarity (norm : List ℚ → ℚ)
    (embeddings : List (List ℚ)) (i j : Nat) : ℚ :=
  dotProduct ((normalizedEmbeddings norm embeddings).getD i [])
    ((normalizedEmbeddings norm embeddings).getD j [])

/-- `combined_similarity = 0.6 * semantic_similarity + 0.4 * legal_similarity`
of `_cluster_with_legal_context`. -/
def combinedSimilarityMatrix (norm : List ℚ → ℚ) (embeddings : List (List ℚ))
    (entities : List Entity) (provisions : List LegalProvision) (i j : Nat) : ℚ :=
  0.6 * calculateSemanticSimilarity norm embeddings i j +
    0.4 * calculateLegalSimilarityMatrix entities provisions i j

/-- `distance_matrix = 1.0 - combined_similarity`. -/
def distanceMatrix (norm : List ℚ → ℚ) (embeddings : List (List ℚ))
    (entities : List Entity) (provisions : List LegalProvision) (i j : Nat) : ℚ :=
  1 - combinedSimilarityMatrix norm embeddings entities provisions i j

/-- A Python loop computing one fallible value per element: the collected
results, or `none` as soon as one iteration raises. -/
def collectSome (f : α → Option β) : List α → Option (List β)
  | [] => some []
  | x :: xs =>
    match f x, collectSome f xs with
    | some y, some ys => some (y :: ys)
    | _, _ => none

/-- Index of the first maximum of a rational list (`np.argmax`; 0 on the
empty list, where numpy would raise — callers guard the empty case). -/
def listArgmax : List ℚ → Nat
  | [] => 0
  | [_] => 0
  | x :: xs =>
    let j := listArgmax xs
    if x < xs.getD j 0 then j + 1 else 0

/-- Index of the first minimum of a rational list (`np.argmin`). -/
def listArgmin : List ℚ → Nat
  | [] => 0
  | [_] => 0
  | x :: xs =>
    let j := listArgmin xs
    if xs.getD j 0 < x then j + 1 else 0

/-- `LegalHierarchicalClustering._get_optimal_clusters_from_distance`
(elbow strategy). `inertia k` is the oracle for
`KMeans(n_clusters=k).fit(distance_matrix).inertia_`; `none` models a
raised numerical error, selecting the except branch `min(3, max_clusters)`
(with the already-clamped local `max_clusters`). -/
def getOptimalClustersFromDistance (inertia : Nat → Option ℚ)
    (nSamples maxClusters : Nat) : Nat :=
  if nSamples ≤ 2 then 1
  else
    let maxC := min maxClusters (nSamples - 1)
    match collectSome inertia (List.range' 1 maxC) with
    | none => min 3 maxC
    | some inertias =>
      if inertias.length < 3 then min 2 maxC
      else
        let secondDerivatives :=
          (List.range' 1 (inertias.length - 2)).map fun i =>
            inertias.getD (i - 1) 0 - 2 * inertias.getD i 0 + inertias.getD (i + 1) 0
        min (listArgmax secondDerivatives + 2) maxC

/-- `LegalHierarchicalClustering._get_optimal_clusters` (BIC strategy).
`bic k` is the oracle for `GaussianMixture(k).fit(X).bic(X)`; `none` models
a raised numerical error.  `np.argmin` on the empty score list raises, also
landing in the except branch. -/
def getOptimalClusters (bic : Nat → Option ℚ) (nSamples maxClusters : Nat) : Nat :=
  if nSamples ≤ 2 then 1
  else
    let maxC := min maxClusters (nSamples - 1)
    match collectSome bic (List.range' 1 maxC) with
    | none => min 3 maxC
    | some bicScores =>
      if bicScores = [] then min 3 maxC
      else 1 + listArgmin bicScores

/-- External capabilities consumed by the clustering path: the vector store
(`entity_vdb.query`), the embedding API behind `entity_vdb.embedding_func`
(a `LegalEmbeddingFunction`), and sklearn.  A `none` result models a raised
exception; `query` results carry an optional precomputed vector (the
`"embedding" in entity_data` check). -/
structure ClusterEnv where
  dim : Nat
  preproc : String → String
  api : List String → Option (List (List ℚ))
  query : String → Option (List (Option (List ℚ)))
  kmeansInertia : (Nat → Nat → ℚ) → Nat → Option ℚ
  kmeansLabels : (Nat → Nat → ℚ) → Nat → Option (Nat → Nat)
  norm : List ℚ → ℚ

/-- Batches of `n` (the `range(0, len, batch_size)` slicing loop); the fuel
argument (initially the list length, which only shrinks) makes the loop
structurally recursive. -/
def chunksOfGo (n : Nat) : Nat → List α → List (List α)
  | _, [] => []
  | 0, _ :: _ => []
  | fuel + 1, x :: xs => (x :: xs.take (n - 1)) :: chunksOfGo n fuel (xs.drop (n - 1))

/-- Batches of `n` (the `range(0, len, batch_size)` slicing loop). -/
def chunksOf (n : Nat) (l : List α) : List (List α) := chunksOfGo n l.length l

/-- `LegalEmbeddingFunction._get_batch_embeddings` of src/utils/embeddings.py:
the API call, with the zero-embedding fallback on any API error. -/
def getBatchEmbeddings (env : ClusterEnv) (texts : List String) : List (List ℚ) :=
  match env.api texts with
  | some vs => vs
  | none => texts.map fun _ => List.replicate env.dim 0

/-- `LegalEmbeddingFunction.__call__`: preprocess (external tokenizer,
modelled by the `preproc` oracle), then batch with batch_size 100. -/
def embeddingFunc (env : ClusterEnv) (texts : List String) : List (List ℚ) :=
  if texts = [] then []
  else ((chunksOf 100 (texts.map env.preproc)).map (getBatchEmbeddings env)).flatten

/-- The per-name body of the loop in `_get_entity_embeddings`: vector-store
query, stored embedding if present, else on-demand generation.  `none`
models an exception escaping to the enclosing try. -/
def getOneEmbedding (env : ClusterEnv) (name : String) : Option (List ℚ) :=
  match env.query name with
  | none => none
  | some results =>
    match results.head? with
    | some entityData =>
      match entityData with
      | some emb => some emb
      | none => (embeddingFunc env [name]).head?
    | none => (embeddingFunc env [name]).head?

/-- `LegalHierarchicalClustering._get_entity_embeddings`: `some` rows on
success (`np.array([])` for no names), `none` when an exception was caught. -/
def getEntityEmbeddings (env : ClusterEnv) (entities : List Entity) :
    Option (List (List ℚ)) :=
  let names := entities.map fun e => e.entityName.getD emptyStr
  if names = [] then some []
  else collectSome (getOneEmbedding env) names

/-- `LegalHierarchicalClustering._cluster_with_legal_context`.  KMeans
`fit_predict` is the `kmeansLabels` oracle (a total label per row index, as
sklearn guarantees); a raised exception (`none`) lands in the except branch
`[entities]`. -/
def clusterWithLegalContext (env : ClusterEnv) (embeddings : List (List ℚ))
    (entities : List Entity) (provisions : List LegalProvision) :
    List (List Entity) :=
  if entities.length ≤ 1 then [entities]
  else
    let dist := distanceMatrix env.norm embeddings entities provisions
    let optimalClusters :=
      getOptimalClustersFromDistance (env.kmeansInertia dist) entities.length
        (min 5 (entities.length / 2))
    if optimalClusters ≤ 1 then [entities]
    else
      match env.kmeansLabels dist optimalClusters with
      | none => [entities]
      | some labels =>
        ((groupByKey (fun p => labels p.1) entities.enum).map
          (List.map Prod.snd))

/-- The body of the per-structure-cluster loop of `perform_clustering`. -/
def stepCluster (cfg : ClusteringConfig) (env : ClusterEnv)
    (provisions : List LegalProvision) (structureCluster : List Entity) :
    List (List Entity) :=
  if structureCluster.length < cfg.minClusterSize then [structureCluster]
  else
    match getEntityEmbeddings env structureCluster with
    | none => [structureCluster]
    | some embeddings =>
      if embeddings.length = 0 then [structureCluster]
      else clusterWithLegalContext env embeddings structureCluster provisions

/-- `LegalHierarchicalClustering.perform_clustering`. -/
def performClustering (cfg : ClusteringConfig) (env : ClusterEnv)
    (entities : List Entity) (provisions : List LegalProvision) :
    List (List Entity) :=
  if entities.length < cfg.minClusterSize then [entities]
  else
    (clusterByLegalStructure entities provisions).foldl
      (fun acc sc => acc ++ stepCluster cfg env provisions sc) []

/- ========================= Auxiliary predicates ========================= -/

/-- Invariant carried by each stack entry of the Hierarchy Builder. -/
def goodPathEntry (e : HierEntry) : Prop :=
  e.hierarchyPath ≠ [] ∧ e.hierarchyPath.getLast? = some e.id ∧
  List.Chain' (fun a b => idLevelLt a b = true) e.hierarchyPath ∧
  levelOfId e.id = some e.level

/- ========================= Concrete witness inputs ========================= -/

def strA : String := "A"
def strB : String := "B"
def strC : String := "C"
def strT : String := "legal_concept"

def c1Prov1 : LegalProvision :=
  { id := mkId .chuong "I", level := .chuong, number := "I", title := strA,
    content := "", documentId := "" }

def c1Prov2 : LegalProvision :=
  { id := mkId .dieu "1", level := .dieu, number := "1", title := strB,
    content := "", documentId := "" }

def c1Input : List LegalProvision := [c1Prov1, c1Prov2]

def c1Expected : LegalProvision :=
  { id := mkId .dieu "1", level := .dieu, number := "1", title := strB,
    content := "", documentId := "", parentId := some (mkId .chuong "I"),
    hierarchyPath := [mkId .chuong "I", mkId .dieu "1"], crossReferences := [] }

def c5Line : String := "a) some text"
def c5KhoanLine : String := "1. some text"
def strLitA : String := "a"
def strSomeText : String := "some text"
def strNum1 : String := "1"

def witnessEnv : ClusterEnv :=
  { dim := 2, preproc := id, api := fun _ => none, query := fun _ => some [],
    kmeansInertia := fun _ _ => none, kmeansLabels := fun _ _ => none,
    norm := fun _ => 0 }

def c6EntA : Entity :=
  { entityName := some strA, entityType := none, level := none, sourceId := none }

def c6EntB : Entity :=
  { entityName := some strB, entityType := none, level := none, sourceId := none }

def c6EntC : Entity :=
  { entityName := some strC, entityType := none, level := none, sourceId := none }

def c6Entities : List Entity := [c6EntA, c6EntB, c6EntC]

def c6Env : ClusterEnv :=
  { dim := 2, preproc := id, api := fun _ => none,
    query := fun n => if n = strA then some [] else some [some [1, 2]],
    kmeansInertia := fun _ _ => none, kmeansLabels := fun _ _ => none,
    norm := fun _ => 0 }

def c6Matrix : List (List ℚ) := [[0, 0], [1, 2], [1, 2]]

def c7Prov1 : LegalProvision :=
  { id := mkId .dieu "1", level := .dieu, number := "1", title := strA,
    content := "", documentId := "",
    hierarchyPath := [mkId .chuong "I", mkId .dieu "1"],
    crossReferences := [mkId .dieu "2"] }

def c7Prov2 : LegalProvision :=
  { id := mkId .dieu "2", level := .dieu, number := "2", title := strB,
    content := "", documentId := "",
    hierarchyPath := [mkId .chuong "I", mkId .dieu "2"] }

def c7Provisions : List LegalProvision := [c7Prov1, c7Prov2]

def c7Ent1 : Entity :=
  { entityName := some strA, entityType := some strT, level := some dieuStr,
    sourceId := some (mkId .dieu "1") }

def c7Ent2 : Entity :=
  { entityName := some strB, entityType := some strT, level := some dieuStr,
    sourceId := some (mkId .dieu "2") }

def c8Norm : List ℚ → ℚ := fun v => if v.all (· = 0) then 0 else 1

def c8Emb : List (List ℚ) := [[0, 0], [3, 4]]

def c9Entities : List Entity := [c7Ent1, c7Ent2]

/- ========================= Helper lemmas ========================= -/

theorem insertKeyed_flatten_perm [DecidableEq κ] (k : κ) (x : α)
    (acc : List (κ × List α)) :
    List.Perm (((insertKeyed k x acc).map Prod.snd).flatten)
      (((acc.map Prod.snd).flatten) ++ [x]) := by
  induction acc with
  | nil => simp [insertKeyed]
  | cons hd rest ih =>
    obtain ⟨k', ys⟩ := hd
    by_cases h : k' = k
    · simp only [insertKeyed, if_pos h, List.map_cons, List.flatten_cons]
      rw [List.append_assoc, List.append_assoc]
      exact List.Perm.append_left ys List.perm_append_comm
    · simp only [insertKeyed, if_neg h, List.map_cons, List.flatten_cons]
      rw [List.append_assoc]
      exact List.Perm.append_left ys ih

theorem groupByKey_foldl_perm [DecidableEq κ] (f : α → κ) :
    ∀ (xs : List α) (acc : List (κ × List α)),
      List.Perm (((xs.foldl (fun a x => insertKeyed (f x) x a) acc).map Prod.snd).flatten)
        (((acc.map Prod.snd).flatten) ++ xs)
  | [], acc => by simp
  | x :: xs, acc => by
    have h1 := groupByKey_foldl_perm f xs (insertKeyed (f x) x acc)
    have h2 := insertKeyed_flatten_perm (f x) x acc
    simp only [List.foldl_cons]
    refine h1.trans ((h2.append_right xs).trans ?_)
    rw [List.append_assoc]
    exact List.Perm.refl _

theorem groupByKey_flatten_perm [DecidableEq κ] (f : α → κ) (xs : List α) :
    List.Perm ((groupByKey f xs).flatten) xs := by
  simpa [groupByKey] using groupByKey_foldl_perm f xs []

theorem clusterWithLegalContext_flatten_perm (env : ClusterEnv)
    (embeddings : List (List ℚ)) (entities : List Entity)
    (provisions : List LegalProvision) :
    List.Perm ((clusterWithLegalContext env embeddings entities provisions).flatten)
      entities := by
  simp only [clusterWithLegalContext]
  split
  · simp
  · split
    · simp
    · split
      · simp
      · rename_i labels _
        rw [← List.map_flatten]
        have h := (groupByKey_flatten_perm (fun p => labels p.1) entities.enum).map Prod.snd
        simpa [List.enum_map_snd] using h

theorem stepCluster_flatten_perm (cfg : ClusteringConfig) (env : ClusterEnv)
    (provisions : List LegalProvision) (sc : List Entity) :
    List.Perm ((stepCluster cfg env provisions sc).flatten) sc := by
  unfold stepCluster
  split
  · simp
  · split
    · simp
    · split
      · simp
      · exact clusterWithLegalContext_flatten_perm _ _ _ _

theorem foldl_append_flatten_perm (step : List α → List (List α))
    (h : ∀ g, List.Perm (step g).flatten g) :
    ∀ (gs : List (List α)) (acc : List (List α)),
      List.Perm ((gs.foldl (fun a g => a ++ step g) acc).flatten)
        (acc.flatten ++ gs.flatten)
  | [], acc => by simp
  | g :: gs, acc => by
    have h1 := foldl_append_flatten_perm step h gs (acc ++ step g)
    simp only [List.foldl_cons, List.flatten_cons]
    refine h1.trans ?_
    rw [List.flatten_append, List.append_assoc]
    exact List.Perm.append_left _ ((h g).append_right _)

theorem listArgmax_lt_length : ∀ (l : List ℚ), l ≠ [] → listArgmax l < l.length
  | [], h => absurd rfl h
  | [_], _ => by simp [listArgmax]
  | _ :: y :: ys, _ => by
    have ih := listArgmax_lt_length (y :: ys) (by simp)
    simp only [listArgmax]
    split
    · exact Nat.succ_lt_succ ih
    · simp

theorem listArgmin_lt_length : ∀ (l : List ℚ), l ≠ [] → listArgmin l < l.length
  | [], h => absurd rfl h
  | [_], _ => by simp [listArgmin]
  | _ :: y :: ys, _ => by
    have ih := listArgmin_lt_length (y :: ys) (by simp)
    simp only [listArgmin]
    split
    · exact Nat.succ_lt_succ ih
    · simp

theorem collectSome_length (f : α → Option β) :
    ∀ (xs : List α) (ys : List β), collectSome f xs = some ys → ys.length = xs.length
  | [], ys, h => by
    simp [collectSome] at h
    simp [← h]
  | x :: xs, ys, h => by
    simp only [collectSome] at h
    cases hx : f x with
    | none => simp [hx] at h
    | some y =>
      cases hxs : collectSome f xs with
      | none => simp [hx, hxs] at h
      | some ytl =>
        have ih := collectSome_length f xs ytl hxs
        simp [hx, hxs] at h
        simp [← h, ih]

theorem collectSome_getElem? (f : α → Option β) :
    ∀ (xs : List α) (ys : List β), collectSome f xs = some ys →
      ∀ (i : Nat) (x : α), xs[i]? = some x → ys[i]? = f x
  | [], _, _, i, x, hx => by simp at hx
  | a :: xs, ys, h, i, x, hx => by
    simp only [collectSome] at h
    cases ha : f a with
    | none => simp [ha] at h
    | some y =>
      cases hxs : collectSome f xs with
      | none => simp [ha, hxs] at h
      | some ytl =>
        simp [ha, hxs] at h
        cases i with
        | zero =>
          simp at hx
          subst hx
          simp [← h, ha]
        | succ n =>
          simp at hx
          have ih := collectSome_getElem? f xs ytl hxs n x hx
          simp [← h, ih]

theorem collectSome_const_none (l : List α) (h : l ≠ []) :
    collectSome (fun _ => (none : Option β)) l = none := by
  cases l with
  | nil => exact absurd rfl h
  | cons x xs => rfl

/-- C2: for every input entity list and provision list (and any behavior of
the vector store, the embedding API and sklearn), the clusters returned by
`perform_clustering` are a partition of the input: their concatenation is a
permutation of the input record list, so no record is lost or duplicated
across the structural pre-clustering pass and the semantic sub-clustering
pass. -/
theorem perform_clustering_partition (cfg : ClusteringConfig) (env : ClusterEnv)
    (entities : List Entity) (provisions : List LegalProvision) :
    List.Perm ((performClustering cfg env entities provisions).flatten) entities := by
  simp only [performClustering]
  split
  · simp
  · have h := foldl_append_flatten_perm (stepCluster cfg env provisions)
      (stepCluster_flatten_perm cfg env provisions)
      (clusterByLegalStructure entities provisions) []
    simp only [List.flatten_nil, List.nil_append] at h
    exact h.trans (groupByKey_flatten_perm _ entities)

/-- C10: whenever the input entity list is shorter than `min_cluster_size`
(default 3), `perform_clustering` returns exactly one cluster equal to the
input list itself; in particular the empty input yields one empty cluster. -/
theorem perform_clustering_small_input (cfg : ClusteringConfig) (env : ClusterEnv)
    (entities : List Entity) (provisions : List LegalProvision) :
    (entities.length < cfg.minClusterSize →
      performClustering cfg env entities provisions = [entities]) ∧
    performClustering defaultClusteringConfig env [] provisions = [[]] := by
  constructor
  · intro h
    simp [performClustering, h]
  · simp [performClustering, defaultClusteringConfig]

theorem perform_clustering_small_input_witness :
    ([c6EntA].length < defaultClusteringConfig.minClusterSize) ∧
    performClustering defaultClusteringConfig witnessEnv [c6EntA] [] = [[c6EntA]] :=
  ⟨by decide,
    (perform_clustering_small_input defaultClusteringConfig witnessEnv [c6EntA] []).1
      (by decide)⟩

/-- C3 (amended): for every inertia/BIC oracle and every `max_clusters ≥ 1`,
both Cluster Count Selector strategies return an integer in
`[1, max_clusters]`; with fewer than 3 samples they return 1; and when every
model fit raises (numerical failure) they return
`min 3 (min max_clusters (n_samples - 1))` — the fallback `min(3, max_clusters)`
computed with the already-clamped local `max_clusters`. -/
theorem optimal_clusters_bounds (inertia bic : Nat → Option ℚ)
    (nSamples maxClusters : Nat) (hmax : 1 ≤ maxClusters) :
    (1 ≤ getOptimalClustersFromDistance inertia nSamples maxClusters ∧
      getOptimalClustersFromDistance inertia nSamples maxClusters ≤ maxClusters) ∧
    (1 ≤ getOptimalClusters bic nSamples maxClusters ∧
      getOptimalClusters bic nSamples maxClusters ≤ maxClusters) ∧
    (nSamples < 3 →
      getOptimalClustersFromDistance inertia nSamples maxClusters = 1 ∧
      getOptimalClusters bic nSamples maxClusters = 1) ∧
    (3 ≤ nSamples →
      getOptimalClustersFromDistance (fun _ => none) nSamples maxClusters =
        min 3 (min maxClusters (nSamples - 1)) ∧
      getOptimalClusters (fun _ => none) nSamples maxClusters =
        min 3 (min maxClusters (nSamples - 1))) := by
  by_cases hn : nSamples ≤ 2
  · refine ⟨?_, ?_, ?_, ?_⟩
    · simp [getOptimalClustersFromDistance, hn, hmax]
    · simp [getOptimalClusters, hn, hmax]
    · intro _
      simp [getOptimalClustersFromDistance, getOptimalClusters, hn]
    · intro h3
      exact absurd h3 (by omega)
  · have hmaxC : 1 ≤ min maxClusters (nSamples - 1) :=
      Nat.le_min.mpr ⟨hmax, by omega⟩
    have hrange : (List.range' 1 (min maxClusters (nSamples - 1))) ≠ [] := by
      intro hcon
      have hl := congrArg List.length hcon
      rw [List.length_range'] at hl
      simp at hl
      omega
    refine ⟨?_, ?_, ?_, ?_⟩
    · -- elbow strategy bounds
      simp only [getOptimalClustersFromDistance, if_neg hn]
      cases hm : collectSome inertia (List.range' 1 (min maxClusters (nSamples - 1))) with
      | none =>
        exact ⟨Nat.le_min.mpr ⟨by norm_num, hmaxC⟩,
          (Nat.min_le_right _ _).trans (Nat.min_le_left _ _)⟩
      | some inertias =>
        dsimp only
        by_cases hlt : inertias.length < 3
        · rw [if_pos hlt]
          exact ⟨Nat.le_min.mpr ⟨by norm_num, hmaxC⟩,
            (Nat.min_le_right _ _).trans (Nat.min_le_left _ _)⟩
        · rw [if_neg hlt]
          exact ⟨Nat.le_min.mpr ⟨by omega, hmaxC⟩,
            (Nat.min_le_right _ _).trans (Nat.min_le_left _ _)⟩
    · -- BIC strategy bounds
      simp only [getOptimalClusters, if_neg hn]
      cases hm : collectSome bic (List.range' 1 (min maxClusters (nSamples - 1))) with
      | none =>
        exact ⟨Nat.le_min.mpr ⟨by norm_num, hmaxC⟩,
          (Nat.min_le_right _ _).trans (Nat.min_le_left _ _)⟩
      | some bicScores =>
        have hlen : bicScores.length = min maxClusters (nSamples - 1) := by
          rw [collectSome_length bic _ _ hm, List.length_range']
        dsimp only
        by_cases hne : bicScores = []
        · rw [if_pos hne]
          exact ⟨Nat.le_min.mpr ⟨by norm_num, hmaxC⟩,
            (Nat.min_le_right _ _).trans (Nat.min_le_left _ _)⟩
        · rw [if_neg hne]
          have harg := listArgmin_lt_length bicScores hne
          have hminle : min maxClusters (nSamples - 1) ≤ maxClusters :=
            Nat.min_le_left _ _
          exact ⟨by omega, by omega⟩
    · intro h
      exact absurd h (by omega)
    · intro _
      have hnone := collectSome_const_none (β := ℚ)
        (List.range' 1 (min maxClusters (nSamples - 1))) hrange
      constructor
      · simp [getOptimalClustersFromDistance, if_neg hn, hnone]
      · simp [getOptimalClusters, if_neg hn, hnone]

theorem optimal_clusters_bounds_witness :
    (1 ≤ 10) ∧
    ((1 ≤ getOptimalClustersFromDistance (fun _ => some 1) 4 10 ∧
      getOptimalClustersFromDistance (fun _ => some 1) 4 10 ≤ 10) ∧
    (1 ≤ getOptimalClusters (fun _ => some 1) 4 10 ∧
      getOptimalClusters (fun _ => some 1) 4 10 ≤ 10) ∧
    (4 < 3 →
      getOptimalClustersFromDistance (fun _ => some 1) 4 10 = 1 ∧
      getOptimalClusters (fun _ => some 1) 4 10 = 1) ∧
    (3 ≤ 4 →
      getOptimalClustersFromDistance (fun _ => none) 4 10 = min 3 (min 10 (4 - 1)) ∧
      getOptimalClusters (fun _ => none) 4 10 = min 3 (min 10 (4 - 1)))) :=
  ⟨by decide,
    optimal_clusters_bounds (fun _ => some 1) (fun _ => some 1) 4 10 (by decide)⟩

/-- C3 counterexample: at a 3-sample distance matrix with `max_clusters = 10`
and every KMeans fit raising, the elbow selector returns
`min(3, min(10, 3-1)) = 2`, not `min(3, max_clusters) = 3` as the claim
states; and at `max_clusters = 0` it returns 0, outside `[1, max_clusters]`. -/
theorem optimal_clusters_fallback_counterexample :
    (getOptimalClustersFromDistance (fun _ => none) 3 10 = 2 ∧ min 3 10 = 3) ∧
    getOptimalClustersFromDistance (fun _ => some 1) 3 0 = 0 := by
  refine ⟨⟨rfl, rfl⟩, rfl⟩

theorem dotProduct_zero_left : ∀ (z w : List ℚ), (∀ x ∈ z, x = 0) → dotProduct z w = 0
  | [], _, _ => by simp [dotProduct]
  | _ :: _, [], _ => by simp [dotProduct]
  | a :: z, b :: w, h => by
    have ha : a = 0 := h a (List.mem_cons_self _ _)
    have ih := dotProduct_zero_left z w fun x hx => h x (List.mem_cons_of_mem _ hx)
    simp only [dotProduct, List.zipWith_cons_cons, List.sum_cons] at ih ⊢
    rw [ha, ih]
    ring

theorem dotProduct_zero_right : ∀ (w z : List ℚ), (∀ x ∈ z, x = 0) → dotProduct w z = 0
  | [], _, _ => by simp [dotProduct]
  | _ :: _, [], _ => by simp [dotProduct]
  | a :: w, b :: z, h => by
    have hb : b = 0 := h b (List.mem_cons_self _ _)
    have ih := dotProduct_zero_right w z fun x hx => h x (List.mem_cons_of_mem _ hx)
    simp only [dotProduct, List.zipWith_cons_cons, List.sum_cons] at ih ⊢
    rw [hb, ih]
    ring

/-- C8: the semantic-similarity computation is division-safe: every safe
row norm (`norms[norms == 0] = 1`) is nonzero; an all-zero embedding row is
assigned safe norm 1; and an all-zero row produces an all-zero cosine
similarity row and column (neutral), for any row-norm function with the
`np.linalg.norm` zero characterization. -/
theorem semantic_similarity_zero_safe (norm : List ℚ → ℚ)
    (embeddings : List (List ℚ))
    (hnorm : ∀ v, norm v = 0 ↔ ∀ x ∈ v, x = 0) :
    (∀ s ∈ safeNorms norm embeddings, s ≠ 0) ∧
    (∀ (i : Nat) (v : List ℚ), embeddings[i]? = some v → (∀ x ∈ v, x = 0) →
      (safeNorms norm embeddings)[i]? = some 1) ∧
    (∀ (i : Nat) (v : List ℚ), embeddings[i]? = some v → (∀ x ∈ v, x = 0) →
      ∀ j : Nat, calculateSemanticSimilarity norm embeddings i j = 0 ∧
        calculateSemanticSimilarity norm embeddings j i = 0) := by
  refine ⟨?_, ?_, ?_⟩
  · intro s hs
    simp only [safeNorms, List.mem_map] at hs
    obtain ⟨v, _, rfl⟩ := hs
    split_ifs with h
    · exact one_ne_zero
    · exact h
  · intro i v hv hz
    have h0 : norm v = 0 := (hnorm v).mpr hz
    simp [safeNorms, hv, h0]
  · intro i v hv hz j
    have hzero : ∀ x ∈ (normalizedEmbeddings norm embeddings).getD i [], x = 0 := by
      have hni : (normalizedEmbeddings norm embeddings)[i]? =
          some (v.map fun x => x / (if norm v = 0 then 1 else norm v)) := by
        simp [normalizedEmbeddings, hv]
      rw [List.getD_eq_getElem?_getD, hni]
      intro x hx
      simp only [Option.getD_some, List.mem_map] at hx
      obtain ⟨a, ha, rfl⟩ := hx
      rw [hz a ha, zero_div]
    exact ⟨dotProduct_zero_left _ _ hzero, dotProduct_zero_right _ _ hzero⟩

theorem c8Norm_spec : ∀ v, c8Norm v = 0 ↔ ∀ x ∈ v, x = 0 := by
  intro v
  simp only [c8Norm]
  by_cases h : v.all (· = 0)
  · rw [if_pos h]
    simp only [List.all_eq_true, decide_eq_true_eq] at h
    exact iff_of_true rfl h
  · rw [if_neg h]
    simp only [List.all_eq_true, decide_eq_true_eq] at h
    exact iff_of_false one_ne_zero h

theorem semantic_similarity_zero_safe_witness :
    (∀ v, c8Norm v = 0 ↔ ∀ x ∈ v, x = 0) ∧
    ((∀ s ∈ safeNorms c8Norm c8Emb, s ≠ 0) ∧
    (∀ (i : Nat) (v : List ℚ), c8Emb[i]? = some v → (∀ x ∈ v, x = 0) →
      (safeNorms c8Norm c8Emb)[i]? = some 1) ∧
    (∀ (i : Nat) (v : List ℚ), c8Emb[i]? = some v → (∀ x ∈ v, x = 0) →
      ∀ j : Nat, calculateSemanticSimilarity c8Norm c8Emb i j = 0 ∧
        calculateSemanticSimilarity c8Norm c8Emb j i = 0)) :=
  ⟨c8Norm_spec, semantic_similarity_zero_safe c8Norm c8Emb c8Norm_spec⟩

theorem levelWeightOf_nonneg (s : String) : 0 ≤ levelWeightOf s := by
  unfold levelWeightOf
  split_ifs <;> norm_num

theorem calculateHierarchyPathSimilarity_nonneg (p1 p2 : List String) :
    0 ≤ calculateHierarchyPathSimilarity p1 p2 := by
  simp only [calculateHierarchyPathSimilarity]
  split_ifs
  · norm_num
  · norm_num
  · exact div_nonneg (Nat.cast_nonneg _) (Nat.cast_nonneg _)

theorem calculateEntityLegalSimilarity_nonneg (e1 e2 : Entity)
    (lookup : String → Option LegalProvision) :
    0 ≤ calculateEntityLegalSimilarity e1 e2 lookup := by
  have hw := levelWeightOf_nonneg (e1.level.getD emptyStr)
  simp only [calculateEntityLegalSimilarity]
  refine le_min ?_ zero_le_one
  cases hl1 : lookup (e1.sourceId.getD emptyStr) with
  | none =>
    dsimp only
    split_ifs <;> linarith [hw]
  | some p1 =>
    cases hl2 : lookup (e2.sourceId.getD emptyStr) with
    | none =>
      dsimp only
      split_ifs <;> linarith [hw]
    | some p2 =>
      dsimp only
      have hpath := calculateHierarchyPathSimilarity_nonneg
        p1.hierarchyPath p2.hierarchyPath
      have hboost : (0 : ℚ) ≤ 0.2 * crossRefBoost := by
        norm_num [crossRefBoost]
      split_ifs <;> linarith [hw, hpath, hboost]

theorem calculateEntityLegalSimilarity_le_one (e1 e2 : Entity)
    (lookup : String → Option LegalProvision) :
    calculateEntityLegalSimilarity e1 e2 lookup ≤ 1 := by
  simp only [calculateEntityLegalSimilarity]
  exact min_le_right _ _

/-- C9: for every entity list and provision list (the missing/None list is
the empty one), the legal similarity matrix is symmetric, every diagonal
entry is exactly 1, and every off-diagonal entry lies in [0, 1]. -/
theorem legal_similarity_matrix_props (entities : List Entity)
    (provisions : List LegalProvision) (i j : Nat)
    (_hi : i < entities.length) (_hj : j < entities.length) :
    calculateLegalSimilarityMatrix entities provisions i j =
      calculateLegalSimilarityMatrix entities provisions j i ∧
    calculateLegalSimilarityMatrix entities provisions i i = 1 ∧
    (i ≠ j → 0 ≤ calculateLegalSimilarityMatrix entities provisions i j ∧
      calculateLegalSimilarityMatrix entities provisions i j ≤ 1) := by
  refine ⟨?_, ?_, ?_⟩
  · by_cases hij : i = j
    · rw [hij]
    · have hji : ¬(j = i) := fun h => hij h.symm
      by_cases hp : provisions = []
      · simp [calculateLegalSimilarityMatrix, hp, hij, hji]
      · simp only [calculateLegalSimilarityMatrix, if_neg hp, if_neg hij, if_neg hji]
        rw [Nat.min_comm j i, Nat.max_comm j i]
  · simp [calculateLegalSimilarityMatrix]
  · intro hij
    by_cases hp : provisions = []
    · simp only [calculateLegalSimilarityMatrix, if_pos hp, if_neg hij]
      norm_num
    · simp only [calculateLegalSimilarityMatrix, if_neg hp, if_neg hij]
      exact ⟨calculateEntityLegalSimilarity_nonneg _ _ _,
        calculateEntityLegalSimilarity_le_one _ _ _⟩

theorem legal_similarity_matrix_props_witness :
    (0 < c9Entities.length) ∧ (1 < c9Entities.length) ∧
    (calculateLegalSimilarityMatrix c9Entities c7Provisions 0 1 =
      calculateLegalSimilarityMatrix c9Entities c7Provisions 1 0 ∧
    calculateLegalSimilarityMatrix c9Entities c7Provisions 0 0 = 1 ∧
    ((0 : Nat) ≠ 1 → 0 ≤ calculateLegalSimilarityMatrix c9Entities c7Provisions 0 1 ∧
      calculateLegalSimilarityMatrix c9Entities c7Provisions 0 1 ≤ 1)) :=
  ⟨by decide, by decide,
    legal_similarity_matrix_props c9Entities c7Provisions 0 1 (by decide) (by decide)⟩

theorem commonPrefixLen_nil_left (b : List String) : commonPrefixLen [] b = 0 := by
  cases b <;> rfl

theorem commonPrefixLen_nil_right (a : List String) : commonPrefixLen a [] = 0 := by
  cases a <;> rfl

theorem calculateHierarchyPathSimilarity_eq (p1 p2 : List String) :
    calculateHierarchyPathSimilarity p1 p2 =
      (commonPrefixLen p1 p2 : ℚ) / ((max p1.length p2.length : Nat) : ℚ) := by
  simp only [calculateHierarchyPathSimilarity]
  by_cases h : p1 = [] ∨ p2 = []
  · rw [if_pos h]
    rcases h with h | h <;> subst h <;>
      simp [commonPrefixLen_nil_left, commonPrefixLen_nil_right]
  · rw [if_neg h]
    push_neg at h
    have hm : max p1.length p2.length ≠ 0 := by
      have h1 : 0 < p1.length := List.length_pos.mpr h.1
      omega
    rw [if_neg hm]

/-- C7: when both records' source provisions are found in the lookup, the
legal similarity equals the spec formula
min(1, level bonus + 0.4·(common prefix / longer path) + cross-ref bonus
0.2·1.5 + type bonus 0.1); and the clustering distance matrix equals
1 − (0.6·semantic + 0.4·legal). -/
theorem entity_legal_similarity_formula (e1 e2 : Entity)
    (provisions : List LegalProvision) (p1 p2 : LegalProvision)
    (h1 : provisionLookup provisions (e1.sourceId.getD emptyStr) = some p1)
    (h2 : provisionLookup provisions (e2.sourceId.getD emptyStr) = some p2) :
    calculateEntityLegalSimilarity e1 e2 (provisionLookup provisions) =
      min 1
        ((if e1.level = e2.level then
            0.3 * (levelWeightOf (e1.level.getD emptyStr) / 5) else 0) +
          0.4 * ((commonPrefixLen p1.hierarchyPath p2.hierarchyPath : ℚ) /
            ((max p1.hierarchyPath.length p2.hierarchyPath.length : Nat) : ℚ)) +
          (if hasCrossReferenceConnection p1 p2 then 0.2 * 1.5 else 0) +
          (if e1.entityType = e2.entityType then 0.1 else 0)) ∧
    (∀ (norm : List ℚ → ℚ) (embeddings : List (List ℚ))
        (entities : List Entity) (i j : Nat),
      distanceMatrix norm embeddings entities provisions i j =
        1 - (0.6 * calculateSemanticSimilarity norm embeddings i j +
          0.4 * calculateLegalSimilarityMatrix entities provisions i j)) := by
  constructor
  · simp only [calculateEntityLegalSimilarity, h1, h2,
      calculateHierarchyPathSimilarity_eq, crossRefBoost]
    rw [min_comm]
    congr 1
    split_ifs <;> ring
  · intro norm embeddings entities i j
    rfl

theorem entity_legal_similarity_formula_witness :
    (provisionLookup c7Provisions (c7Ent1.sourceId.getD emptyStr) = some c7Prov1) ∧
    (provisionLookup c7Provisions (c7Ent2.sourceId.getD emptyStr) = some c7Prov2) ∧
    (calculateEntityLegalSimilarity c7Ent1 c7Ent2 (provisionLookup c7Provisions) =
      min 1
        ((if c7Ent1.level = c7Ent2.level then
            0.3 * (levelWeightOf (c7Ent1.level.getD emptyStr) / 5) else 0) +
          0.4 * ((commonPrefixLen c7Prov1.hierarchyPath c7Prov2.hierarchyPath : ℚ) /
            ((max c7Prov1.hierarchyPath.length c7Prov2.hierarchyPath.length : Nat) : ℚ)) +
          (if hasCrossReferenceConnection c7Prov1 c7Prov2 then 0.2 * 1.5 else 0) +
          (if c7Ent1.entityType = c7Ent2.entityType then 0.1 else 0)) ∧
    (∀ (norm : List ℚ → ℚ) (embeddings : List (List ℚ))
        (entities : List Entity) (i j : Nat),
      distanceMatrix norm embeddings entities c7Provisions i j =
        1 - (0.6 * calculateSemanticSimilarity norm embeddings i j +
          0.4 * calculateLegalSimilarityMatrix entities c7Provisions i j))) :=
  ⟨by decide, by decide,
    entity_legal_similarity_formula c7Ent1 c7Ent2 c7Provisions c7Prov1 c7Prov2
      (by decide) (by decide)⟩

/-- C6: when, for one record of a group, the vector-store query returns no
usable vector and the on-demand embedding API call fails, the pipeline
substitutes the deterministic zero vector for that record (via the
zero-embedding fallback of `LegalEmbeddingFunction`), the group still goes
through semantic clustering, and the group's output clusters still contain
every record — the failure does not abort the clustering request. -/
theorem embedding_double_failure_zero_vector (cfg : ClusteringConfig)
    (env : ClusterEnv) (entities : List Entity)
    (provisions : List LegalProvision) (i : Nat) (e : Entity)
    (M : List (List ℚ))
    (he : entities[i]? = some e)
    (hq : env.query (e.entityName.getD emptyStr) = some [])
    (ha : env.api [env.preproc (e.entityName.getD emptyStr)] = none)
    (hM : getEntityEmbeddings env entities = some M)
    (hmin : cfg.minClusterSize ≤ entities.length) :
    M[i]? = some (List.replicate env.dim 0) ∧
    stepCluster cfg env provisions entities =
      clusterWithLegalContext env M entities provisions ∧
    List.Perm ((stepCluster cfg env provisions entities).flatten) entities := by
  have hne : entities ≠ [] := by
    intro hcon
    subst hcon
    simp at he
  have hnames : (entities.map fun x => x.entityName.getD emptyStr) ≠ [] := by
    simpa using hne
  have hM' : collectSome (getOneEmbedding env)
      (entities.map fun x => x.entityName.getD emptyStr) = some M := by
    simpa [getEntityEmbeddings, hnames] using hM
  have hnamei : (entities.map fun x => x.entityName.getD emptyStr)[i]? =
      some (e.entityName.getD emptyStr) := by
    simp [he]
  have hrow := collectSome_getElem? (getOneEmbedding env) _ _ hM' i _ hnamei
  have hone : getOneEmbedding env (e.entityName.getD emptyStr) =
      some (List.replicate env.dim 0) := by
    simp [getOneEmbedding, hq, embeddingFunc, chunksOf, chunksOfGo, getBatchEmbeddings, ha]
  have hMi : M[i]? = some (List.replicate env.dim 0) := hrow.trans hone
  have hMne : M.length ≠ 0 := by
    intro hcon
    rw [List.length_eq_zero] at hcon
    subst hcon
    simp at hMi
  refine ⟨hMi, ?_, stepCluster_flatten_perm cfg env provisions entities⟩
  simp only [stepCluster]
  rw [if_neg (by omega), hM]
  dsimp only
  rw [if_neg hMne]

theorem embedding_double_failure_zero_vector_witness :
    (c6Entities[0]? = some c6EntA) ∧
    (c6Env.query (c6EntA.entityName.getD emptyStr) = some []) ∧
    (c6Env.api [c6Env.preproc (c6EntA.entityName.getD emptyStr)] = none) ∧
    (getEntityEmbeddings c6Env c6Entities = some c6Matrix) ∧
    (defaultClusteringConfig.minClusterSize ≤ c6Entities.length) ∧
    (c6Matrix[0]? = some (List.replicate c6Env.dim 0) ∧
      stepCluster defaultClusteringConfig c6Env [] c6Entities =
        clusterWithLegalContext c6Env c6Matrix c6Entities [] ∧
      List.Perm ((stepCluster defaultClusteringConfig c6Env [] c6Entities).flatten)
        c6Entities) :=
  ⟨by decide, by decide, rfl, by rfl, by decide,
    embedding_double_failure_zero_vector defaultClusteringConfig c6Env c6Entities []
      0 c6EntA c6Matrix (by decide) (by decide) rfl (by rfl) (by decide)⟩

theorem levelOfId_mkId (lvl : LegalLevel) (number : String) :
    levelOfId (mkId lvl number) = some lvl := by
  cases lvl <;> rfl

theorem dropWhile_head_not (q : α → Bool) :
    ∀ (l : List α) (a : α) (t : List α), l.dropWhile q = a :: t → q a = false := by
  intro l
  induction l with
  | nil => intro a t h; simp [List.dropWhile] at h
  | cons x xs ih =>
    intro a t h
    by_cases hx : q x
    · rw [List.dropWhile_cons_of_pos hx] at h
      exact ih a t h
    · rw [List.dropWhile_cons_of_neg hx] at h
      cases h
      exact Bool.of_not_eq_true hx

theorem buildHierarchyAux_good :
    ∀ (ps : List LegalProvision) (stack : List HierEntry)
      (hier : List (String × HierEntry)),
      (∀ p ∈ ps, p.id = mkId p.level p.number) →
      (∀ e ∈ stack, goodPathEntry e) →
      List.Chain' (fun a b => levelIndex b.level < levelIndex a.level) stack →
      ∀ p' ∈ (buildHierarchyAux ps stack hier).1,
        p'.hierarchyPath ≠ [] ∧ p'.hierarchyPath.getLast? = some p'.id ∧
        List.Chain' (fun a b => idLevelLt a b = true) p'.hierarchyPath
  | [], _, _, _, _, _ => by
    intro p' hp'
    simp [buildHierarchyAux] at hp'
  | p :: rest, stack, hier, hwf, hgood, hord => by
    intro p' hp'
    have hpid : p.id = mkId p.level p.number := hwf p (List.mem_cons_self _ _)
    have hlvlp : levelOfId p.id = some p.level := by
      rw [hpid]; exact levelOfId_mkId _ _
    set q : HierEntry → Bool := fun e => !(isChildOf p.level e.level) with hq
    have hgood' : ∀ e ∈ stack.dropWhile q, goodPathEntry e :=
      fun e he => hgood e ((List.dropWhile_suffix q).subset he)
    have hord' :
        List.Chain' (fun a b => levelIndex b.level < levelIndex a.level)
          (stack.dropWhile q) :=
      hord.suffix (List.dropWhile_suffix q)
    -- the assigned path is well-formed whatever the popped stack looks like
    have hpath : ∀ (path : List String),
        path = (match (stack.dropWhile q).head? with
          | some top => top.hierarchyPath ++ [p.id]
          | none => [p.id]) →
        path ≠ [] ∧ path.getLast? = some p.id ∧
          List.Chain' (fun a b => idLevelLt a b = true) path ∧
          (∀ y ∈ (stack.dropWhile q).head?,
            levelIndex y.level < levelIndex p.level) := by
      intro path hpatheq
      cases hs : (stack.dropWhile q).head? with
      | none =>
        rw [hs] at hpatheq
        subst hpatheq
        refine ⟨by simp, by simp, List.chain'_singleton _, ?_⟩
        intro y hy
        simp at hy
      | some top =>
        have htopmem : top ∈ stack.dropWhile q := by
          cases hsd : stack.dropWhile q with
          | nil => rw [hsd] at hs; simp at hs
          | cons a t =>
            rw [hsd] at hs
            simp at hs
            rw [hs]
            exact List.mem_cons_self _ _
        have htopq : q top = false := by
          cases hsd : stack.dropWhile q with
          | nil => rw [hsd] at hs; simp at hs
          | cons a t =>
            rw [hsd] at hs
            simp at hs
            subst hs
            exact dropWhile_head_not q stack a t hsd
        have hlt : levelIndex top.level < levelIndex p.level := by
          have : isChildOf p.level top.level = true := by
            simp [hq] at htopq
            exact htopq
          simpa [isChildOf] using this
        obtain ⟨hne, hlast, hchain, hlvl⟩ := hgood' top htopmem
        rw [hs] at hpatheq
        subst hpatheq
        refine ⟨by simp, by rw [List.getLast?_concat], ?_, ?_⟩
        · refine List.chain'_append.mpr ⟨hchain, List.chain'_singleton _, ?_⟩
          intro x hx y hy
          simp only [List.head?_cons, Option.mem_def, Option.some.injEq] at hy
          rw [hlast] at hx
          simp only [Option.mem_def, Option.some.injEq] at hx
          subst hx
          subst hy
          simp only [idLevelLt, hlvl, hlvlp]
          simp [hlt]
        · intro y hy
          simp only [Option.mem_def, Option.some.injEq] at hy
          subst hy
          exact hlt
    simp only [buildHierarchyAux] at hp'
    rcases List.mem_cons.mp hp' with hp'eq | hmem
    · subst hp'eq
      have h := hpath _ rfl
      exact ⟨h.1, h.2.1, h.2.2.1⟩
    · -- recursive call with the pushed entry
      have h := hpath _ rfl
      refine buildHierarchyAux_good rest _ _
        (fun r hr => hwf r (List.mem_cons_of_mem _ hr)) ?_ ?_ p' hmem
      · intro e he
        rcases List.mem_cons.mp he with rfl | he'
        · exact ⟨h.1, h.2.1, h.2.2.1, hlvlp⟩
        · exact hgood' e he'
      · refine List.chain'_cons'.mpr ⟨?_, hord'⟩
        intro y hy
        exact h.2.2.2 y hy

/-- C1: after the Hierarchy Builder runs on a provision list in document
order (provision ids derived from level and ordinal, as the extractor
builds them), every provision's hierarchy_path is non-empty, its last
element is the provision's own id, and adjacent path elements have strictly
increasing level taxonomy indices (phan < chuong < muc < dieu < khoan). -/
theorem build_hierarchy_path_invariant (ps : List LegalProvision)
    (hwf : ∀ p ∈ ps, p.id = mkId p.level p.number) :
    ∀ p' ∈ (buildHierarchy ps).1,
      p'.hierarchyPath ≠ [] ∧ p'.hierarchyPath.getLast? = some p'.id ∧
      List.Chain' (fun a b => idLevelLt a b = true) p'.hierarchyPath :=
  buildHierarchyAux_good ps [] [] hwf (by simp) (by simp)

theorem build_hierarchy_path_invariant_witness :
    (∀ p ∈ c1Input, p.id = mkId p.level p.number) ∧
    c1Expected ∈ (buildHierarchy c1Input).1 ∧
    (c1Expected.hierarchyPath ≠ [] ∧
      c1Expected.hierarchyPath.getLast? = some c1Expected.id ∧
      List.Chain' (fun a b => idLevelLt a b = true) c1Expected.hierarchyPath) :=
  ⟨by decide, by decide,
    build_hierarchy_path_invariant c1Input (by decide) c1Expected (by decide)⟩

theorem cleanLines_cons (l : String) (rest : List String) :
    cleanLines (l :: rest) =
      if l.trim = "" then cleanLines rest else l.trim :: cleanLines rest := by
  simp only [cleanLines, List.map_cons, List.filter_cons]
  by_cases h : l.trim = ""
  · simp [h]
  · simp [h]

theorem extractAux_spec : ∀ (lines : List String),
    (extractProvisionsAux lines none =
      (specSegments (cleanLines lines)).map segToProvision) ∧
    (∀ cur buf, extractProvisionsAux lines (some (cur, buf)) =
      closeProvision cur (buf ++ (cleanLines lines).takeWhile isNotMarker) ::
        (specSegments ((cleanLines lines).dropWhile isNotMarker)).map segToProvision)
  | [] => by
    constructor
    · simp [extractProvisionsAux, cleanLines, specSegments]
    · intro cur buf
      simp [extractProvisionsAux, cleanLines, specSegments]
  | l :: rest => by
    have ih := extractAux_spec rest
    constructor
    · by_cases hb : l.trim = ""
      · simp only [extractProvisionsAux, if_pos hb]
        rw [cleanLines_cons, if_pos hb]
        exact ih.1
      · rw [cleanLines_cons, if_neg hb]
        cases hm : matchLegalPattern l.trim with
        | some m =>
          obtain ⟨lvl, num, ti⟩ := m
          simp only [extractProvisionsAux, if_neg hb, hm]
          rw [ih.2]
          simp [specSegments, hm, isNotMarker, segToProvision, closeProvision,
            mkProvisionFromMatch]
        | none =>
          simp only [extractProvisionsAux, if_neg hb, hm]
          rw [ih.1]
          simp [specSegments, hm]
    · intro cur buf
      by_cases hb : l.trim = ""
      · simp only [extractProvisionsAux, if_pos hb]
        rw [cleanLines_cons, if_pos hb]
        exact ih.2 cur buf
      · rw [cleanLines_cons, if_neg hb]
        cases hm : matchLegalPattern l.trim with
        | some m =>
          obtain ⟨lvl, num, ti⟩ := m
          simp only [extractProvisionsAux, if_neg hb, hm]
          rw [ih.2]
          simp [specSegments, hm, isNotMarker, segToProvision, closeProvision,
            mkProvisionFromMatch]
        | none =>
          simp only [extractProvisionsAux, if_neg hb, hm]
          rw [ih.2]
          simp only [List.takeWhile_cons, List.dropWhile_cons, isNotMarker, hm,
            Option.isNone_none, if_pos, List.append_assoc, List.singleton_append]

/-- C4: the Provision Extractor equals the spec-side segmentation: strip
lines and drop blanks, drop preamble lines before the first recognized
marker, split at marker lines, and for each segment emit a provision whose
level/ordinal/heading come from its marker line and whose body is the
buffered lines (marker line first) joined with newlines and trimmed; the
last open provision is closed at end of input. -/
theorem extract_provisions_segmentation (lines : List String) :
    extractProvisions lines =
      (specSegments (cleanLines lines)).map segToProvision :=
  (extractAux_spec lines).1

/-- C5 counterexample: the Pattern Matcher used by the Provision Extractor
returns no match at all for the lettered sub-ordinal line "a) some text"
(the claim expects a Clause-level match with ordinal "a"). -/
theorem pattern_matcher_letter_counterexample :
    matchLegalPattern c5Line = none := by
  rfl

/-- C5 (amended): the Clause-level recognizer of the Pattern Matcher used by
the Provision Extractor accepts only bare leading numerals ("1. …"), not
lettered sub-ordinals; the lettered pattern `^([a-z])\)\s+(.+)` exists only
in the unused VietnameseLegalParser.level_patterns, where it does match
"a) some text" with ordinal "a". -/
theorem pattern_matcher_letter_amended :
    matchLegalPattern c5Line = none ∧
    vietKhoanLetterParen c5Line = some (strLitA, strSomeText) ∧
    matchLegalPattern c5KhoanLine = some (.khoan, strNum1, strSomeText) := by
  refine ⟨rfl, rfl, rfl⟩

end LegalHirag
